import Mathlib

/-!
Shallow embedding of the Pokemon analytics tools of this repository
(`analytics-mcp-server/server.py`, `analytics-mcp-server/http_server.py`,
`mcp-server/server.py`), together with proofs that check the
natural-language specification against the code.

Python `dict`s whose keys are stat names are modelled as association
lists with distinct, insertion-ordered keys (Python dictionaries keep
insertion order and cannot hold duplicate keys).  Python `float`
arithmetic on the values appearing here (products of 2 and 1/2, exact
percentages) is modelled with `ℚ`; every value reached by the functions
below is exactly representable, so the model agrees with the code.
An operation that can raise (`KeyError`) or return an error payload is
modelled with `Option`.
-/

namespace Workshop

/-- ASCII lower-casing of one character (the names and type labels this
system handles are ASCII). -/
def asciiLowerChar (c : Char) : Char :=
  if 'A' ≤ c ∧ c ≤ 'Z' then Char.ofNat (c.toNat + 32) else c

/-- ASCII upper-casing of one character. -/
def asciiUpperChar (c : Char) : Char :=
  if 'a' ≤ c ∧ c ≤ 'z' then Char.ofNat (c.toNat - 32) else c

/-- Python `str.lower()` on ASCII strings. -/
def pyLower (s : String) : String :=
  ⟨s.data.map asciiLowerChar⟩

/-- Python `str.capitalize()`: first character upper-cased, the rest
lower-cased (ASCII behaviour, which covers the names used here). -/
def pyCapitalize (s : String) : String :=
  match s.data with
  | [] => ""
  | c :: cs => ⟨asciiUpperChar c :: cs.map asciiLowerChar⟩

/-- A resolved catalog subject, as the servers project it out of the
PokeAPI JSON: display name, list of type names, and the base-stat
dictionary (as its insertion-ordered item list). -/
structure Subject where
  name : String
  types : List String
  stats : List (String × Int)
deriving DecidableEq, Repr

/-- The environment of resolvable subjects: what
`PokemonAnalytics.get_pokemon_data` answers for each key (`none` when
the fetch fails for any reason, see `getPokemonData` below). -/
def Env : Type := String → Option Subject

/-- Python dict indexing `stats[k]` / membership `k in stats`, on the
item-list model of the dict. -/
def lookupStat (stats : List (String × Int)) (k : String) : Option Int :=
  (stats.find? (fun p => p.1 == k)).map Prod.snd

/-- Model of `sum(stats.values())` in the source. -/
def statTotal (stats : List (String × Int)) : Int :=
  (stats.map Prod.snd).sum

/-! ## `PokemonAnalytics.compare_pokemon_stats` (`server.py` lines 50-90) -/

/-- One entry of the per-stat `comparison` dict: the source stores
`abs(diff)` in `difference` and
`pokemon1 if diff > 0 else pokemon2 if diff < 0 else "tie"` in `winner`. -/
structure StatComparisonEntry where
  statName : String
  difference : Int
  winner : String
deriving DecidableEq, Repr

/-- The comparison payload built by `compare_pokemon_stats`. -/
structure StatComparison where
  name1 : String
  stats1 : List (String × Int)
  total1 : Int
  name2 : String
  stats2 : List (String × Int)
  total2 : Int
  perStat : List StatComparisonEntry
  overallWinner : String
deriving DecidableEq, Repr

/-- The loop `for stat_name in stats1.keys(): diff = stats1[stat_name] -
stats2[stat_name]; ...`.  Indexing `stats2[stat_name]` raises `KeyError`
when the key is absent; that is modelled as `none`. -/
def compareEntries (p1 p2 : String) (stats1 stats2 : List (String × Int)) :
    Option (List StatComparisonEntry) :=
  match stats1 with
  | [] => some []
  | kv :: rest =>
    match lookupStat stats2 kv.1 with
    | none => none
    | some v2 =>
      (compareEntries p1 p2 rest stats2).map (fun es =>
        { statName := kv.1
          difference := |kv.2 - v2|
          winner :=
            if kv.2 - v2 > 0 then p1 else if kv.2 - v2 < 0 then p2 else "tie" } :: es)

/-- Model of `PokemonAnalytics.compare_pokemon_stats`.  Returns `none` when a
subject fails to resolve (the error payload) or when the per-stat loop
raises a `KeyError`.  The display names use Python `str.title()`,
modelled with `pyCapitalize` (the two agree on the single-word names
this server handles). -/
def comparePokemonStats (env : Env) (p1 p2 : String) : Option StatComparison :=
  match env p1, env p2 with
  | some d1, some d2 =>
    (compareEntries p1 p2 d1.stats d2.stats).map (fun es =>
      let total1 := statTotal d1.stats
      let total2 := statTotal d2.stats
      { name1 := pyCapitalize d1.name
        stats1 := d1.stats
        total1 := total1
        name2 := pyCapitalize d2.name
        stats2 := d2.stats
        total2 := total2
        perStat := es
        overallWinner :=
          if total1 - total2 > 0 then p1
          else if total1 - total2 < 0 then p2 else "tie" })
  | _, _ => none

/-! ## `PokemonAnalytics.get_type_effectiveness` (`server.py` lines 92-144) -/

/-- The `damage_relations` object of the attacking type, projected to
the three name lists the loop consults. -/
structure DamageRelations where
  doubleDamageTo : List String
  halfDamageTo : List String
  noDamageTo : List String
deriving DecidableEq, Repr

/-- The multiplicative factor the loop body applies for one defending
type (the `if any(...) / elif ... / else` chain, lines 107-119). -/
def typeFactor (dr : DamageRelations) (defenderType : String) : ℚ :=
  if dr.doubleDamageTo.contains (pyLower defenderType) then 2
  else if dr.halfDamageTo.contains (pyLower defenderType) then 1 / 2
  else if dr.noDamageTo.contains (pyLower defenderType) then 0
  else 1

/-- The explanation string the same chain appends to `details`. -/
def typeDetail (dr : DamageRelations) (defenderType : String) : String :=
  if dr.doubleDamageTo.contains (pyLower defenderType) then
    "Super effective against " ++ defenderType
  else if dr.halfDamageTo.contains (pyLower defenderType) then
    "Not very effective against " ++ defenderType
  else if dr.noDamageTo.contains (pyLower defenderType) then
    "No effect against " ++ defenderType
  else
    "Normal effectiveness against " ++ defenderType

/-- The `for defender_type in defender_types` loop, carrying the running
`effectiveness` and `details` accumulators exactly as the source does. -/
def effLoop (dr : DamageRelations) (defenderTypes : List String)
    (acc : ℚ) (ds : List String) : ℚ × List String :=
  match defenderTypes with
  | [] => (acc, ds)
  | d :: rest => effLoop dr rest (acc * typeFactor dr d) (ds ++ [typeDetail dr d])

/-- Model of `PokemonAnalytics._get_effectiveness_description` (lines 131-144). -/
def effectivenessDescription (multiplier : ℚ) : String :=
  if multiplier ≥ 4 then "Extremely effective!"
  else if multiplier ≥ 2 then "Super effective!"
  else if multiplier = 1 then "Normal effectiveness"
  else if multiplier ≥ 1 / 2 then "Not very effective..."
  else if multiplier > 0 then "Barely effective..."
  else "No effect!"

/-- The success payload of `get_type_effectiveness`. -/
structure TypeEffectiveness where
  attackerType : String
  defenderTypes : List String
  effectivenessMultiplier : ℚ
  description : String
  details : List String
deriving DecidableEq, Repr

/-- Model of `PokemonAnalytics.get_type_effectiveness`, given the fetched
`damage_relations` of the attacking type (the fetch itself is the same
adapter as `getPokemonData`; the claims below are about the computation
after a successful fetch). -/
def getTypeEffectiveness (dr : DamageRelations) (attackerType : String)
    (defenderTypes : List String) : TypeEffectiveness :=
  let r := effLoop dr defenderTypes 1 []
  { attackerType := attackerType
    defenderTypes := defenderTypes
    effectivenessMultiplier := r.1
    description := effectivenessDescription r.1
    details := r.2 }

/-! ## `get_stat_rankings` (`http_server.py` lines 295-332, the live
ranked-listing variant the spec declares canonical) -/

/-- One collected entry `{"name": ..., stat_name: value}` before ranks
are attached.  `http_server.py` uses `data["name"].capitalize()`. -/
structure RankEntry where
  name : String
  value : Int
deriving DecidableEq, Repr

/-- The collection loop (lines 302-310): fetch each subject, skip it
when the fetch fails or when the requested stat is absent from its
stat dict. -/
def collectRankings (env : Env) (statName : String) : List String → List RankEntry
  | [] => []
  | p :: rest =>
    match env p with
    | none => collectRankings env statName rest
    | some d =>
      match lookupStat d.stats statName with
      | none => collectRankings env statName rest
      | some v => { name := pyCapitalize d.name, value := v } :: collectRankings env statName rest

/-- Stable descending insertion: an element passes over exactly the
entries with strictly larger value, so equal values keep their original
relative order.  Any stable sort under the key `x[stat_name]` with
`reverse=True` — in particular Python's `list.sort` — produces this
output. -/
def insertDesc (e : RankEntry) : List RankEntry → List RankEntry
  | [] => [e]
  | x :: xs => if x.value > e.value then x :: insertDesc e xs else e :: x :: xs

/-- Model of `rankings.sort(key=lambda x: x[stat_name], reverse=True)` (line 313)
as a stable descending sort. -/
def sortDesc : List RankEntry → List RankEntry
  | [] => []
  | e :: xs => insertDesc e (sortDesc xs)

/-- An entry after `pokemon["rank"] = i + 1` (lines 316-317). -/
structure RankedEntry where
  name : String
  value : Int
  rank : Nat
deriving DecidableEq, Repr

/-- Model of `for i, pokemon in enumerate(rankings): pokemon["rank"] = i + 1`,
with the running `enumerate` counter made explicit. -/
def addRanksFrom (i : Nat) : List RankEntry → List RankedEntry
  | [] => []
  | e :: rest => { name := e.name, value := e.value, rank := i + 1 } :: addRanksFrom (i + 1) rest

/-- Model of `for i, pokemon in enumerate(rankings): pokemon["rank"] = i + 1`. -/
def addRanks (l : List RankEntry) : List RankedEntry :=
  addRanksFrom 0 l

/-- The `result` payload (lines 319-327): the ranked list and the
summary.  `statistics.mean` over integers is the exact arithmetic mean,
modelled in `ℚ`. -/
structure RankingsResult where
  rankings : List RankedEntry
  highest : Option RankedEntry
  lowest : Option RankedEntry
  average : ℚ
deriving DecidableEq, Repr

/-- Model of `get_stat_rankings` of `http_server.py`: collect, stable-sort
descending, attach 1-based ranks, and summarise (`rankings[0]` /
`rankings[-1]` / `statistics.mean` when non-empty, else
`None`/`None`/`0`). -/
def getStatRankings (env : Env) (statName : String) (pokemonList : List String) :
    RankingsResult :=
  let rs := addRanks (sortDesc (collectRankings env statName pokemonList))
  { rankings := rs
    highest := rs.head?
    lowest := rs.getLast?
    average :=
      if rs.isEmpty then 0
      else ((rs.map (fun e => e.value)).sum : ℚ) / rs.length }

/-! ## `PokemonAnalytics.build_pokemon_team` (`server.py` lines 253-306) -/

/-- One roster entry `{"name": ..., "role": ..., "types": [...]}`. -/
structure TeamMember where
  name : String
  role : String
  types : List String
deriving DecidableEq, Repr

/-- The fixed `"balanced"` roster. -/
def balancedRoster : List TeamMember :=
  [ { name := "Garchomp", role := "Physical Sweeper", types := ["Ground", "Dragon"] },
    { name := "Rotom-Wash", role := "Tank/Utility", types := ["Electric", "Water"] },
    { name := "Ferrothorn", role := "Physical Wall", types := ["Grass", "Steel"] },
    { name := "Latios", role := "Special Sweeper", types := ["Dragon", "Psychic"] },
    { name := "Scizor", role := "Priority Attacker", types := ["Bug", "Steel"] },
    { name := "Gliscor", role := "Physical Wall", types := ["Ground", "Flying"] } ]

/-- The fixed `"offensive"` roster. -/
def offensiveRoster : List TeamMember :=
  [ { name := "Salamence", role := "Special Sweeper", types := ["Dragon", "Flying"] },
    { name := "Metagross", role := "Physical Sweeper", types := ["Steel", "Psychic"] },
    { name := "Gengar", role := "Special Sweeper", types := ["Ghost", "Poison"] },
    { name := "Lucario", role := "Mixed Attacker", types := ["Fighting", "Steel"] },
    { name := "Dragonite", role := "Physical Sweeper", types := ["Dragon", "Flying"] },
    { name := "Alakazam", role := "Special Sweeper", types := ["Psychic"] } ]

/-- The fixed `"defensive"` roster. -/
def defensiveRoster : List TeamMember :=
  [ { name := "Blissey", role := "Special Wall", types := ["Normal"] },
    { name := "Skarmory", role := "Physical Wall", types := ["Steel", "Flying"] },
    { name := "Toxapex", role := "Special Wall", types := ["Poison", "Water"] },
    { name := "Hippowdon", role := "Physical Wall", types := ["Ground"] },
    { name := "Celesteela", role := "Mixed Wall", types := ["Steel", "Flying"] },
    { name := "Chansey", role := "Special Wall", types := ["Normal"] } ]

/-- The `strategies` dict lookup (`strategy not in strategies` fails). -/
def strategyRoster (strategy : String) : Option (String × List TeamMember) :=
  if strategy = "balanced" then
    some ("A well-rounded team with good type coverage and stat distribution", balancedRoster)
  else if strategy = "offensive" then
    some ("High-damage team focused on overwhelming opponents", offensiveRoster)
  else if strategy = "defensive" then
    some ("Tanky team designed to outlast opponents", defensiveRoster)
  else none

/-- The team payload `build_pokemon_team` returns on success.
`type_coverage` is `list(set(all_types))`; a Python `set` has no
guaranteed iteration order, so the model fixes first-occurrence order
(`dedup`), which has the same members and no duplicates. -/
structure TeamResult where
  description : String
  teamSize : Nat
  selectedPokemon : List TeamMember
  typeCoverage : List String
  strategy : String
deriving DecidableEq, Repr

/-- Model of `PokemonAnalytics.build_pokemon_team`: unknown strategy is the error
payload (`none`); otherwise `team["pokemon"][:team_size]` is selected
(`List.take`, the non-negative slice) and the coverage set computed. -/
def buildPokemonTeam (strategy : String) (teamSize : Nat) : Option TeamResult :=
  match strategyRoster strategy with
  | none => none
  | some dr =>
    let selected := dr.2.take teamSize
    some { description := dr.1
           teamSize := min teamSize dr.2.length
           selectedPokemon := selected
           typeCoverage := ((selected.map (fun m => m.types)).flatten).dedup
           strategy := strategy }

/-! ## `PokemonAnalytics.calculate_team_coverage` (`server.py` lines 418-459) -/

/-- The important-type gap list (line 448). -/
def importantTypes : List String :=
  ["Fire", "Water", "Grass", "Electric", "Ice", "Fighting", "Flying", "Ground"]

/-- Python `round(x, 1)` on the values reachable here: `n / 18 * 100`
for `n ≤ 18` is never a tie at the rounding boundary (`500 n / 9` is a
half-integer only when `9 ∣ n`, and then it is an integer), so
round-half-to-even and round-half-up agree and the float computation is
exact to the printed digit. -/
def round1 (q : ℚ) : ℚ :=
  (round (q * 10) : ℚ) / 10

/-- The coverage payload of `calculate_team_coverage`.  `team_pokemon`
keeps `(display name, types)` per resolved subject. -/
structure CoverageResult where
  teamPokemon : List (String × List String)
  offensiveTypes : List String
  typeCoverageScore : Nat
  maxPossibleCoverage : Nat
  coveragePercentage : ℚ
  recommendations : List String
deriving DecidableEq, Repr

/-- The fetch loop of `calculate_team_coverage` (lines 423-431): keep
`(name.title(), types)` for each subject that resolves.  `str.title()`
is modelled with `pyCapitalize`; the two agree on single-word names. -/
def collectTeam (env : Env) : List String → List (String × List String)
  | [] => []
  | p :: rest =>
    match env p with
    | none => collectTeam env rest
    | some d => (pyCapitalize d.name, d.types) :: collectTeam env rest

/-- The `coverage` payload `calculate_team_coverage` builds from the
resolved team data (lines 436-457): score, percentage and the
recommendation list in source order (missing-important first, then the
`< 6` / `≥ 12` diversity remark). -/
def teamCoverageOf (pd : List (String × List String)) : CoverageResult :=
  let teamTypes := (pd.map Prod.snd).flatten
  let uniqueTypes := teamTypes.dedup
  let missingImportant := importantTypes.filter (fun t => !uniqueTypes.contains t)
  { teamPokemon := pd
    offensiveTypes := uniqueTypes
    typeCoverageScore := uniqueTypes.length
    maxPossibleCoverage := 18
    coveragePercentage := round1 ((uniqueTypes.length : ℚ) / 18 * 100)
    recommendations :=
      (if missingImportant.isEmpty then []
       else ["Consider adding Pokemon with these important types: " ++
             String.intercalate ", " missingImportant]) ++
      (if uniqueTypes.length < 6 then
         ["Team has limited type diversity - consider adding Pokemon with different types"]
       else if uniqueTypes.length ≥ 12 then
         ["Excellent type coverage! Team can handle most matchups"]
       else []) }

/-- Model of `PokemonAnalytics.calculate_team_coverage`: error payload (`none`)
when no subject resolved, else the coverage payload of the resolved
team data. -/
def calculateTeamCoverage (env : Env) (pokemonList : List String) :
    Option CoverageResult :=
  let pd := collectTeam env pokemonList
  if pd.isEmpty then none else some (teamCoverageOf pd)

/-! ## `PokemonAnalytics.get_pokemon_data` (`server.py` lines 28-37) -/

/-- What one HTTP round trip to the catalog can observe: a transport
failure (the request raised), or a response with a status code and a
body that either parses to a subject record or is malformed
(`response.json()` raises). -/
inductive HttpResult where
  | transportFailure : HttpResult
  | response (status : Nat) (body : Option Subject) : HttpResult
deriving DecidableEq, Repr

/-- Model of `PokemonAnalytics.get_pokemon_data` as a function of the HTTP
outcome: `response.json()` is returned only on status 200; any non-200
status returns `None`; any raised exception — transport failure or a
malformed body on status 200 — is caught by the blanket `except` and
also returns `None`. -/
def getPokemonData : HttpResult → Option Subject
  | .transportFailure => none
  | .response status body => if status = 200 then body else none

/-! ## Concrete fixtures used by the example-scenario theorems -/

/-- Fixture for the stat-comparison example `{hp:35, attack:55}` vs
`{hp:60, attack:50}` from the spec. -/
def exampleCompareEnv : Env := fun s =>
  if s = "a" then some { name := "alpha", types := ["grass"], stats := [("hp", 35), ("attack", 55)] }
  else if s = "b" then some { name := "beta", types := ["fire"], stats := [("hp", 60), ("attack", 50)] }
  else none

/-- Fixture with two subjects whose metric key sets are disjoint and of
equal size. -/
def disjointStatsEnv : Env := fun s =>
  if s = "c" then some { name := "gamma", types := [], stats := [("hp", 1)] }
  else if s = "d" then some { name := "delta", types := [], stats := [("attack", 2)] }
  else none

/-- Fixture damage relations of an electric-like attacking type. -/
def electricRelations : DamageRelations :=
  { doubleDamageTo := ["water", "flying"]
    halfDamageTo := ["grass", "electric", "dragon"]
    noDamageTo := ["ground"] }

/-- Fixture environment for the ranked-listing scenarios: `p1` and `p3`
tie on `hp`, `p2` is highest, `p4` resolves but has no `hp` metric, and
every other key fails to resolve. -/
def rankingsEnv : Env := fun s =>
  if s = "p1" then some { name := "p1", types := [], stats := [("hp", 5)] }
  else if s = "p2" then some { name := "p2", types := [], stats := [("hp", 9)] }
  else if s = "p3" then some { name := "p3", types := [], stats := [("hp", 5)] }
  else if s = "p4" then some { name := "p4", types := [], stats := [("attack", 3)] }
  else none

/-- Fixture environment for the coverage scenario: one subject covering
nine distinct categories, among them all eight important ones. -/
def coverageEnv : Env := fun s =>
  if s = "solo" then
    some { name := "solo"
           types := ["Fire", "Water", "Grass", "Electric", "Ice", "Fighting", "Flying",
                     "Ground", "Rock"]
           stats := [] }
  else none

/-- Fixture subject for the fetch-adapter scenarios. -/
def sampleSubject : Subject :=
  { name := "pikachu", types := ["electric"], stats := [("hp", 35)] }

/-! ## Lemmas about the type-effectiveness loop -/

/-- Closed form of the effectiveness loop: the multiplier is the running
product of the per-category factors and the details are appended in
input order. -/
lemma effLoop_eq (dr : DamageRelations) (l : List String) (acc : ℚ) (ds : List String) :
    effLoop dr l acc ds =
      (acc * (l.map (typeFactor dr)).prod, ds ++ l.map (typeDetail dr)) := by
  induction l generalizing acc ds with
  | nil => simp [effLoop]
  | cons d rest ih => simp [effLoop, ih, mul_assoc]

/-- The multiplier component of the loop is the left fold of the
per-category factors. -/
lemma effLoop_fst (dr : DamageRelations) (l : List String) (acc : ℚ) (ds : List String) :
    (effLoop dr l acc ds).1 = l.foldl (fun a d => a * typeFactor dr d) acc := by
  induction l generalizing acc ds with
  | nil => simp [effLoop]
  | cons d rest ih => simp [effLoop, List.foldl, ih]

/-- Bucket `≥ 4` of the description function. -/
lemma effDesc_extreme {m : ℚ} (h : m ≥ 4) :
    effectivenessDescription m = "Extremely effective!" := by
  unfold effectivenessDescription
  rw [if_pos h]

/-- Bucket `[2, 4)` of the description function. -/
lemma effDesc_super {m : ℚ} (h4 : m < 4) (h2 : m ≥ 2) :
    effectivenessDescription m = "Super effective!" := by
  unfold effectivenessDescription
  rw [if_neg (by linarith), if_pos h2]

/-- Bucket `= 1` of the description function. -/
lemma effDesc_normal {m : ℚ} (h : m = 1) :
    effectivenessDescription m = "Normal effectiveness" := by
  subst h
  unfold effectivenessDescription
  norm_num

/-- Bucket `[1/2, 2)` minus the point `1` of the description function. -/
lemma effDesc_notVery {m : ℚ} (hlt : m < 2) (hne : m ≠ 1) (hge : m ≥ 1 / 2) :
    effectivenessDescription m = "Not very effective..." := by
  unfold effectivenessDescription
  rw [if_neg (by linarith), if_neg (by linarith), if_neg hne, if_pos hge]

/-- Bucket `(0, 1/2)` of the description function. -/
lemma effDesc_barely {m : ℚ} (hlt : m < 1 / 2) (hpos : m > 0) :
    effectivenessDescription m = "Barely effective..." := by
  unfold effectivenessDescription
  rw [if_neg (by linarith), if_neg (by linarith), if_neg (by linarith),
    if_neg (by linarith), if_pos hpos]

/-- Bucket `= 0` of the description function. -/
lemma effDesc_zero {m : ℚ} (h : m = 0) :
    effectivenessDescription m = "No effect!" := by
  subst h
  unfold effectivenessDescription
  norm_num

/-- Factor of a defending category found in the strong-against set. -/
lemma typeFactor_double {dr : DamageRelations} {d : String}
    (h : dr.doubleDamageTo.contains (pyLower d) = true) : typeFactor dr d = 2 := by
  unfold typeFactor
  rw [h]
  simp

/-- Detail string of a defending category found in the strong-against set. -/
lemma typeDetail_double {dr : DamageRelations} {d : String}
    (h : dr.doubleDamageTo.contains (pyLower d) = true) :
    typeDetail dr d = "Super effective against " ++ d := by
  unfold typeDetail
  rw [h]
  simp

/-- C3: the multiplier of `get_type_effectiveness` is the fold that
starts at 1.0 and multiplies one factor per defending category (2.0 for
strong-against, 0.5 for weak-against, 0.0 for no-effect, 1.0 otherwise),
so zero defending categories give exactly 1.0 with description "Normal
effectiveness"; and the returned description is the bucket of the final
multiplier: `≥ 4` extremely effective, `≥ 2` super effective, `= 1`
normal, `≥ 1/2` not very effective, `> 0` barely effective, `= 0` no
effect. -/
theorem getTypeEffectiveness_fold_buckets (dr : DamageRelations) (atk : String)
    (l : List String) :
    (getTypeEffectiveness dr atk l).effectivenessMultiplier =
        l.foldl (fun acc d => acc * typeFactor dr d) 1 ∧
    (getTypeEffectiveness dr atk []).effectivenessMultiplier = 1 ∧
    (getTypeEffectiveness dr atk []).description = "Normal effectiveness" ∧
    ((getTypeEffectiveness dr atk l).effectivenessMultiplier ≥ 4 →
      (getTypeEffectiveness dr atk l).description = "Extremely effective!") ∧
    ((getTypeEffectiveness dr atk l).effectivenessMultiplier < 4 →
      (getTypeEffectiveness dr atk l).effectivenessMultiplier ≥ 2 →
      (getTypeEffectiveness dr atk l).description = "Super effective!") ∧
    ((getTypeEffectiveness dr atk l).effectivenessMultiplier = 1 →
      (getTypeEffectiveness dr atk l).description = "Normal effectiveness") ∧
    ((getTypeEffectiveness dr atk l).effectivenessMultiplier < 2 →
      (getTypeEffectiveness dr atk l).effectivenessMultiplier ≠ 1 →
      (getTypeEffectiveness dr atk l).effectivenessMultiplier ≥ 1 / 2 →
      (getTypeEffectiveness dr atk l).description = "Not very effective...") ∧
    ((getTypeEffectiveness dr atk l).effectivenessMultiplier < 1 / 2 →
      (getTypeEffectiveness dr atk l).effectivenessMultiplier > 0 →
      (getTypeEffectiveness dr atk l).description = "Barely effective...") ∧
    ((getTypeEffectiveness dr atk l).effectivenessMultiplier = 0 →
      (getTypeEffectiveness dr atk l).description = "No effect!") := by
  have hdesc : (getTypeEffectiveness dr atk l).description =
      effectivenessDescription (getTypeEffectiveness dr atk l).effectivenessMultiplier := by
    simp [getTypeEffectiveness]
  refine ⟨by simp [getTypeEffectiveness, effLoop_fst], by simp [getTypeEffectiveness, effLoop],
    ?_, ?_, ?_, ?_, ?_, ?_, ?_⟩
  · have h1 : (getTypeEffectiveness dr atk ([] : List String)).effectivenessMultiplier = 1 := by
      simp [getTypeEffectiveness, effLoop]
    have hd : (getTypeEffectiveness dr atk ([] : List String)).description =
        effectivenessDescription
          (getTypeEffectiveness dr atk ([] : List String)).effectivenessMultiplier := by
      simp [getTypeEffectiveness]
    rw [hd, effDesc_normal h1]
  · intro h
    rw [hdesc, effDesc_extreme h]
  · intro h4 h2
    rw [hdesc, effDesc_super h4 h2]
  · intro h1
    rw [hdesc, effDesc_normal h1]
  · intro hlt hne hge
    rw [hdesc, effDesc_notVery hlt hne hge]
  · intro hlt hpos
    rw [hdesc, effDesc_barely hlt hpos]
  · intro h0
    rw [hdesc, effDesc_zero h0]

/-- Witness for C3 at the electric fixture: two strong-against defenders
give multiplier 4 and the extremely-effective description, and the empty
defender list gives multiplier 1. -/
theorem getTypeEffectiveness_fold_buckets_witness :
    (getTypeEffectiveness electricRelations "electric" ["Water", "Flying"]).effectivenessMultiplier = 4 ∧
    (getTypeEffectiveness electricRelations "electric" ["Water", "Flying"]).description =
      "Extremely effective!" ∧
    (getTypeEffectiveness electricRelations "electric" []).effectivenessMultiplier = 1 := by
  have h := getTypeEffectiveness_fold_buckets electricRelations "electric" ["Water", "Flying"]
  have hm : (getTypeEffectiveness electricRelations "electric"
      ["Water", "Flying"]).effectivenessMultiplier = 4 := by
    have hf1 : typeFactor electricRelations "Water" = 2 := typeFactor_double (by decide)
    have hf2 : typeFactor electricRelations "Flying" = 2 := typeFactor_double (by decide)
    rw [h.1]
    simp only [List.foldl, hf1, hf2]
    norm_num
  exact ⟨hm, h.2.2.2.1 (by rw [hm]), h.2.1⟩

/-- C4: the effectiveness multiplier is invariant under permutation of
the defending categories, while the details list has exactly one
explanation per defending category, in input order. -/
theorem getTypeEffectiveness_perm_stable (dr : DamageRelations) (atk : String)
    (l1 l2 : List String) (h : l1.Perm l2) :
    (getTypeEffectiveness dr atk l1).effectivenessMultiplier =
      (getTypeEffectiveness dr atk l2).effectivenessMultiplier ∧
    (getTypeEffectiveness dr atk l1).details = l1.map (typeDetail dr) ∧
    (getTypeEffectiveness dr atk l1).details.length = l1.length := by
  refine ⟨?_, ?_, ?_⟩
  · have hp := (h.map (typeFactor dr)).prod_eq
    simp [getTypeEffectiveness, effLoop_eq, hp]
  · simp [getTypeEffectiveness, effLoop_eq]
  · simp [getTypeEffectiveness, effLoop_eq]

/-- Witness for C4: swapping the two defenders of the electric fixture
leaves the multiplier unchanged, and the details list of the original
order names the defenders in input order. -/
theorem getTypeEffectiveness_perm_stable_witness :
    (getTypeEffectiveness electricRelations "electric" ["Flying", "Water"]).effectivenessMultiplier =
      (getTypeEffectiveness electricRelations "electric" ["Water", "Flying"]).effectivenessMultiplier ∧
    (getTypeEffectiveness electricRelations "electric" ["Water", "Flying"]).details =
      ["Super effective against Water", "Super effective against Flying"] := by
  have h := getTypeEffectiveness_perm_stable electricRelations "electric"
    ["Flying", "Water"] ["Water", "Flying"] (by decide)
  have h2 := getTypeEffectiveness_perm_stable electricRelations "electric"
    ["Water", "Flying"] ["Flying", "Water"] (by decide)
  refine ⟨h.1, ?_⟩
  rw [h2.2.1, List.map_cons, List.map_cons, List.map_nil,
    typeDetail_double (by decide), typeDetail_double (by decide)]
  decide

/-! ## Lemmas about the stat-comparison loop -/

/-- The comparison payload the example environment produces. -/
def exampleComparison : StatComparison :=
  { name1 := "Alpha"
    stats1 := [("hp", 35), ("attack", 55)]
    total1 := 90
    name2 := "Beta"
    stats2 := [("hp", 60), ("attack", 50)]
    total2 := 110
    perStat := [{ statName := "hp", difference := 25, winner := "b" },
                { statName := "attack", difference := 5, winner := "a" }]
    overallWinner := "b" }

/-- Every key of the first stat dict whose lookup in the second dict
succeeds contributes its entry — absolute difference, sign-determined
winner — to the output of the comparison loop. -/
lemma compareEntries_mem (p1 p2 k : String) (v1 v2 : Int) :
    ∀ (s1 : List (String × Int)) (s2 : List (String × Int))
      (es : List StatComparisonEntry),
      compareEntries p1 p2 s1 s2 = some es → (k, v1) ∈ s1 →
      lookupStat s2 k = some v2 →
      ({ statName := k, difference := |v1 - v2|,
         winner := if v1 - v2 > 0 then p1 else if v1 - v2 < 0 then p2 else "tie" } :
        StatComparisonEntry) ∈ es := by
  intro s1
  induction s1 with
  | nil => intro s2 es h hk hv; simp at hk
  | cons kv rest ih =>
    intro s2 es h hk hv
    rw [compareEntries] at h
    cases hl : lookupStat s2 kv.1 with
    | none => rw [hl] at h; exact absurd h (by simp)
    | some w =>
      rw [hl] at h
      cases hrest : compareEntries p1 p2 rest s2 with
      | none => rw [hrest] at h; exact absurd h (by simp)
      | some es2 =>
        rw [hrest] at h
        simp only [Option.map_some'] at h
        have hes := Option.some.inj h
        rcases List.mem_cons.mp hk with heq | hmem
        · subst heq
          rw [hl] at hv
          have hw := Option.some.inj hv
          subst hw
          rw [← hes]
          exact List.mem_cons_self _ _
        · rw [← hes]
          exact List.mem_cons_of_mem _ (ih s2 es2 hrest hmem hv)

/-- C1 (amended: the two subjects' metric key sets coincide rather than
being disjoint, and the example totals are 90 vs 110): the per-metric
winner follows the sign of the computed difference — first subject when
positive, second when negative, `"tie"` when zero — and the overall
winner follows the same rule on the difference of the metric sums. -/
theorem comparePokemonStats_winners (env : Env) (p1 p2 k : String)
    (d1 d2 : Subject) (c : StatComparison) (v1 v2 : Int)
    (h1 : env p1 = some d1) (h2 : env p2 = some d2)
    (hc : comparePokemonStats env p1 p2 = some c)
    (hk : (k, v1) ∈ d1.stats) (hv : lookupStat d2.stats k = some v2) :
    ({ statName := k, difference := |v1 - v2|,
       winner := if v1 - v2 > 0 then p1 else if v1 - v2 < 0 then p2 else "tie" } :
      StatComparisonEntry) ∈ c.perStat ∧
    (statTotal d1.stats - statTotal d2.stats > 0 → c.overallWinner = p1) ∧
    (statTotal d1.stats - statTotal d2.stats < 0 → c.overallWinner = p2) ∧
    (statTotal d1.stats - statTotal d2.stats = 0 → c.overallWinner = "tie") := by
  simp only [comparePokemonStats, h1, h2] at hc
  cases hes : compareEntries p1 p2 d1.stats d2.stats with
  | none => rw [hes] at hc; exact absurd hc (by simp)
  | some es =>
    rw [hes] at hc
    simp only [Option.map_some'] at hc
    have hce := Option.some.inj hc
    subst hce
    refine ⟨compareEntries_mem p1 p2 k v1 v2 d1.stats d2.stats es hes hk hv, ?_, ?_, ?_⟩
    · intro hpos
      simp only [if_pos hpos]
    · intro hneg
      have hnp : ¬ statTotal d1.stats - statTotal d2.stats > 0 := by linarith
      simp only [if_neg hnp, if_pos hneg]
    · intro hzero
      have hnp : ¬ statTotal d1.stats - statTotal d2.stats > 0 := by simp [hzero]
      have hnn : ¬ statTotal d1.stats - statTotal d2.stats < 0 := by simp [hzero]
      simp only [if_neg hnp, if_neg hnn]

/-- Counterexample to C1 as stated: for two subjects with disjoint
metric key sets of equal size the comparison raises a `KeyError`
(modelled as the `none` outcome) instead of assigning per-metric
winners, and the example's first-subject metric sum is 90 — not the 95
the claim asserts. -/
theorem comparePokemonStats_claim_counterexample :
    comparePokemonStats disjointStatsEnv "c" "d" = none ∧
    (comparePokemonStats exampleCompareEnv "a" "b").map (fun c => c.total1) = some 90 ∧
    (90 : Int) ≠ 95 := by
  refine ⟨by decide, by decide, by decide⟩

/-- Witness for C1 at the spec's example: hp's winner is the second
subject, attack's winner is the first subject, and the overall winner is
the second subject. -/
theorem comparePokemonStats_winners_witness :
    ({ statName := "hp", difference := 25, winner := "b" } :
      StatComparisonEntry) ∈ exampleComparison.perStat ∧
    ({ statName := "attack", difference := 5, winner := "a" } :
      StatComparisonEntry) ∈ exampleComparison.perStat ∧
    exampleComparison.overallWinner = "b" := by
  have hhp := comparePokemonStats_winners exampleCompareEnv "a" "b" "hp"
    { name := "alpha", types := ["grass"], stats := [("hp", 35), ("attack", 55)] }
    { name := "beta", types := ["fire"], stats := [("hp", 60), ("attack", 50)] }
    exampleComparison 35 60 (by decide) (by decide) (by decide) (by decide) (by decide)
  have hatk := comparePokemonStats_winners exampleCompareEnv "a" "b" "attack"
    { name := "alpha", types := ["grass"], stats := [("hp", 35), ("attack", 55)] }
    { name := "beta", types := ["fire"], stats := [("hp", 60), ("attack", 50)] }
    exampleComparison 55 50 (by decide) (by decide) (by decide) (by decide) (by decide)
  exact ⟨hhp.1, hatk.1, hhp.2.2.1 (by decide)⟩

/-- C2 (amended: the reported per-metric difference is the absolute
value `|subjectA.value - subjectB.value|`, never negative): the output
carries, for each metric, the absolute difference, alongside both
subjects' full metric maps and their totals. -/
theorem comparePokemonStats_reportsAbs (env : Env) (p1 p2 k : String)
    (d1 d2 : Subject) (c : StatComparison) (v1 v2 : Int)
    (h1 : env p1 = some d1) (h2 : env p2 = some d2)
    (hc : comparePokemonStats env p1 p2 = some c)
    (hk : (k, v1) ∈ d1.stats) (hv : lookupStat d2.stats k = some v2) :
    c.stats1 = d1.stats ∧ c.stats2 = d2.stats ∧
    c.total1 = statTotal d1.stats ∧ c.total2 = statTotal d2.stats ∧
    ({ statName := k, difference := |v1 - v2|,
       winner := if v1 - v2 > 0 then p1 else if v1 - v2 < 0 then p2 else "tie" } :
      StatComparisonEntry) ∈ c.perStat ∧
    (0 : Int) ≤ |v1 - v2| := by
  simp only [comparePokemonStats, h1, h2] at hc
  cases hes : compareEntries p1 p2 d1.stats d2.stats with
  | none => rw [hes] at hc; exact absurd hc (by simp)
  | some es =>
    rw [hes] at hc
    simp only [Option.map_some'] at hc
    have hce := Option.some.inj hc
    subst hce
    exact ⟨rfl, rfl, rfl, rfl,
      compareEntries_mem p1 p2 k v1 v2 d1.stats d2.stats es hes hk hv, abs_nonneg _⟩

/-- Counterexample to C2 as stated: at the spec's own example the
reported `hp` difference is 25, although subject B's value is larger
(35 - 60 < 0) — the output never carries the negative signed
difference. -/
theorem comparePokemonStats_signed_counterexample :
    (comparePokemonStats exampleCompareEnv "a" "b").map
        (fun c => c.perStat.map (fun e => e.difference)) = some [25, 5] ∧
    (35 : Int) - 60 < 0 ∧ ¬ ((25 : Int) < 0) := by
  refine ⟨by decide, by decide, by decide⟩

/-- Witness for C2 at the spec's example: the output carries both full
stat dicts, the totals 90 and 110, and the absolute hp difference 25. -/
theorem comparePokemonStats_reportsAbs_witness :
    exampleComparison.stats1 = [("hp", 35), ("attack", 55)] ∧
    exampleComparison.stats2 = [("hp", 60), ("attack", 50)] ∧
    exampleComparison.total1 = 90 ∧
    exampleComparison.total2 = 110 := by
  have h := comparePokemonStats_reportsAbs exampleCompareEnv "a" "b" "hp"
    { name := "alpha", types := ["grass"], stats := [("hp", 35), ("attack", 55)] }
    { name := "beta", types := ["fire"], stats := [("hp", 60), ("attack", 50)] }
    exampleComparison 35 60 (by decide) (by decide) (by decide) (by decide) (by decide)
  exact ⟨h.1, h.2.1, by rw [h.2.2.1]; decide, by rw [h.2.2.2.1]; decide⟩

/-! ## Lemmas about the ranked-listing pipeline -/

/-- Insertion places an element past exactly the strictly larger
entries, so the result is a permutation of consing it. -/
lemma insertDesc_perm (e : RankEntry) (l : List RankEntry) :
    (insertDesc e l).Perm (e :: l) := by
  induction l with
  | nil => exact List.Perm.refl _
  | cons x xs ih =>
    simp only [insertDesc]
    split
    · exact (ih.cons x).trans (List.Perm.swap e x xs)
    · exact List.Perm.refl _

/-- The stable descending sort permutes its input. -/
lemma sortDesc_perm (l : List RankEntry) : (sortDesc l).Perm l := by
  induction l with
  | nil => exact List.Perm.refl _
  | cons e xs ih => exact (insertDesc_perm e (sortDesc xs)).trans (ih.cons e)

/-- Insertion preserves the descending-by-value sortedness. -/
lemma insertDesc_sorted (e : RankEntry) (l : List RankEntry)
    (h : l.Sorted (fun a b => a.value ≥ b.value)) :
    (insertDesc e l).Sorted (fun a b => a.value ≥ b.value) := by
  induction l with
  | nil => simp [insertDesc]
  | cons x xs ih =>
    rw [List.sorted_cons] at h
    simp only [insertDesc]
    split
    · rename_i hgt
      rw [List.sorted_cons]
      refine ⟨?_, ih h.2⟩
      intro b hb
      rcases List.mem_cons.mp ((insertDesc_perm e xs).mem_iff.mp hb) with rfl | hbxs
      · exact le_of_lt hgt
      · exact h.1 b hbxs
    · rename_i hle
      rw [List.sorted_cons]
      refine ⟨?_, List.sorted_cons.mpr h⟩
      intro b hb
      rcases List.mem_cons.mp hb with rfl | hbxs
      · exact not_lt.mp hle
      · exact le_trans (h.1 b hbxs) (not_lt.mp hle)

/-- The output of the stable descending sort is sorted descending by
value. -/
lemma sortDesc_sorted (l : List RankEntry) :
    (sortDesc l).Sorted (fun a b => a.value ≥ b.value) := by
  induction l with
  | nil => simp [sortDesc]
  | cons e xs ih => exact insertDesc_sorted e _ ih

/-- Filtering one value class through an insertion: the inserted element
lands in front of its own value class and other classes are untouched. -/
lemma insertDesc_filter (v : Int) (e : RankEntry) (l : List RankEntry) :
    (insertDesc e l).filter (fun a => a.value == v) =
      if e.value = v then e :: l.filter (fun a => a.value == v)
      else l.filter (fun a => a.value == v) := by
  induction l with
  | nil =>
    by_cases hv : e.value = v <;> simp [insertDesc, List.filter_cons, beq_iff_eq, hv]
  | cons x xs ih =>
    simp only [insertDesc]
    split
    · rename_i hgt
      by_cases hxv : x.value = v
      · by_cases hev : e.value = v
        · exact absurd (hxv.trans hev.symm) (by intro hcon; rw [hcon] at hgt; exact lt_irrefl _ hgt)
        · simp [List.filter_cons, hxv, hev, ih]
      · simp [List.filter_cons, hxv, ih]
    · by_cases hev : e.value = v
      · simp [List.filter_cons, hev]
      · simp [List.filter_cons, hev]

/-- Stability of the sort: each value class keeps its pre-sort relative
order. -/
lemma sortDesc_filter (v : Int) (l : List RankEntry) :
    (sortDesc l).filter (fun a => a.value == v) = l.filter (fun a => a.value == v) := by
  induction l with
  | nil => rfl
  | cons e xs ih =>
    simp only [sortDesc]
    rw [insertDesc_filter]
    by_cases hev : e.value = v
    · simp [List.filter_cons, hev, ih]
    · simp [List.filter_cons, hev, ih]

/-- The attached ranks are the consecutive positions starting at the
enumeration base plus one. -/
lemma addRanksFrom_ranks (l : List RankEntry) : ∀ i : Nat,
    (addRanksFrom i l).map (fun e => e.rank) = List.range' (i + 1) l.length := by
  induction l with
  | nil => intro i; simp [addRanksFrom]
  | cons a xs ih =>
    intro i
    simp [addRanksFrom, ih, List.range'_succ]

/-- Attaching ranks does not change the sequence of values. -/
lemma addRanksFrom_values (l : List RankEntry) : ∀ i : Nat,
    (addRanksFrom i l).map (fun e => e.value) = l.map (fun a => a.value) := by
  induction l with
  | nil => intro i; rfl
  | cons a xs ih => intro i; simp [addRanksFrom, ih]

/-- Attaching ranks does not change the name sequence of any value
class. -/
lemma addRanksFrom_filterNames (v : Int) (l : List RankEntry) : ∀ i : Nat,
    ((addRanksFrom i l).filter (fun e => e.value == v)).map (fun e => e.name) =
      (l.filter (fun a => a.value == v)).map (fun a => a.name) := by
  induction l with
  | nil => intro i; rfl
  | cons a xs ih =>
    intro i
    by_cases hv : a.value = v <;> simp [addRanksFrom, List.filter_cons, hv, ih]

/-- Length is preserved by rank attachment. -/
lemma addRanksFrom_length (l : List RankEntry) : ∀ i : Nat,
    (addRanksFrom i l).length = l.length := by
  induction l with
  | nil => intro i; rfl
  | cons a xs ih => intro i; simp [addRanksFrom, ih]

/-- Every ranked entry descends from a collected entry with the same
name and value. -/
lemma addRanksFrom_mem (e : RankedEntry) (l : List RankEntry) : ∀ i : Nat,
    e ∈ addRanksFrom i l → ∃ a, a ∈ l ∧ e.name = a.name ∧ e.value = a.value := by
  induction l with
  | nil => intro i h; simp [addRanksFrom] at h
  | cons a xs ih =>
    intro i h
    rcases List.mem_cons.mp h with rfl | h2
    · exact ⟨a, List.mem_cons_self a xs, rfl, rfl⟩
    · obtain ⟨b, hb, hn, hv⟩ := ih (i + 1) h2
      exact ⟨b, List.mem_cons_of_mem _ hb, hn, hv⟩

/-- The rank of the last ranked entry is the enumeration base plus the
list length. -/
lemma addRanksFrom_getLastRank (l : List RankEntry) : ∀ (a : RankEntry) (i : Nat),
    (addRanksFrom i (a :: l)).getLast?.map (fun e => e.rank) = some (i + l.length + 1) := by
  induction l with
  | nil => intro a i; simp [addRanksFrom]
  | cons b xs ih =>
    intro a i
    have h2 := ih b (i + 1)
    simp only [addRanksFrom] at h2 ⊢
    rw [List.getLast?_cons_cons, h2]
    simp only [List.length_cons, Option.some.injEq]
    omega

/-- The collection loop distributes over list append. -/
lemma collectRankings_append (env : Env) (s : String) (l1 l2 : List String) :
    collectRankings env s (l1 ++ l2) =
      collectRankings env s l1 ++ collectRankings env s l2 := by
  induction l1 with
  | nil => rfl
  | cons p rest ih =>
    cases hp : env p with
    | none => simp [collectRankings, hp, ih]
    | some d =>
      cases hl : lookupStat d.stats s with
      | none => simp [collectRankings, hp, hl, ih]
      | some v => simp [collectRankings, hp, hl, ih]

/-- A key that fails to resolve is skipped by the collection loop. -/
lemma collectRankings_skipKey (env : Env) (s k : String) (hk : env k = none)
    (l1 l2 : List String) :
    collectRankings env s (l1 ++ k :: l2) = collectRankings env s (l1 ++ l2) := by
  rw [collectRankings_append, collectRankings_append]
  congr 1
  simp [collectRankings, hk]

/-- Every collected entry descends from an input key that resolves to a
subject possessing the requested stat. -/
lemma collectRankings_mem (env : Env) (s : String) (a : RankEntry) :
    ∀ l : List String, a ∈ collectRankings env s l →
      ∃ key, key ∈ l ∧ ∃ d, env key = some d ∧ a.name = pyCapitalize d.name ∧
        lookupStat d.stats s = some a.value := by
  intro l
  induction l with
  | nil => intro h; simp [collectRankings] at h
  | cons p rest ih =>
    intro h
    cases hp : env p with
    | none =>
      simp only [collectRankings, hp] at h
      obtain ⟨key, hkey, rest2⟩ := ih h
      exact ⟨key, List.mem_cons_of_mem _ hkey, rest2⟩
    | some d =>
      cases hl : lookupStat d.stats s with
      | none =>
        simp only [collectRankings, hp, hl] at h
        obtain ⟨key, hkey, rest2⟩ := ih h
        exact ⟨key, List.mem_cons_of_mem _ hkey, rest2⟩
      | some v =>
        simp only [collectRankings, hp, hl] at h
        rcases List.mem_cons.mp h with rfl | h2
        · exact ⟨p, List.mem_cons_self _ _, d, hp, rfl, hl⟩
        · obtain ⟨key, hkey, rest2⟩ := ih h2
          exact ⟨key, List.mem_cons_of_mem _ hkey, rest2⟩

/-- C5: the ranked listing skips unresolvable subjects without failing
(removing such a subject leaves the result unchanged), sorts the
resolved entries descending by the requested metric with a stable sort
(each value class keeps its pre-sort relative order) and assigns the
rank values 1..n in that sorted order. -/
theorem getStatRankings_spec (env : Env) (statName : String)
    (l l1 l2 : List String) (k : String) (v : Int) (hk : env k = none) :
    (getStatRankings env statName l).rankings.map (fun e => e.rank) =
      List.range' 1 (collectRankings env statName l).length ∧
    (getStatRankings env statName l).rankings.map (fun e => e.value) =
      (sortDesc (collectRankings env statName l)).map (fun a => a.value) ∧
    ((getStatRankings env statName l).rankings.map (fun e => e.value)).Sorted (· ≥ ·) ∧
    (sortDesc (collectRankings env statName l)).Perm (collectRankings env statName l) ∧
    ((getStatRankings env statName l).rankings.filter (fun e => e.value == v)).map
        (fun e => e.name) =
      ((collectRankings env statName l).filter (fun a => a.value == v)).map
        (fun a => a.name) ∧
    getStatRankings env statName (l1 ++ k :: l2) = getStatRankings env statName (l1 ++ l2) := by
  refine ⟨?_, ?_, ?_, sortDesc_perm _, ?_, ?_⟩
  · simp only [getStatRankings, addRanks]
    rw [addRanksFrom_ranks, (sortDesc_perm _).length_eq]
  · simp only [getStatRankings, addRanks]
    rw [addRanksFrom_values]
  · simp only [getStatRankings, addRanks]
    rw [addRanksFrom_values]
    exact List.pairwise_map.mpr (sortDesc_sorted _)
  · simp only [getStatRankings, addRanks]
    rw [addRanksFrom_filterNames, sortDesc_filter]
  · simp only [getStatRankings]
    rw [collectRankings_skipKey env statName k hk l1 l2]

/-- Witness for C5 on the rankings fixture: `p1` and `p3` tie on hp and
keep their input order behind `p2`, ranks run 1..3, and dropping the
unresolvable key `nozzz` leaves the result unchanged. -/
theorem getStatRankings_spec_witness :
    (getStatRankings rankingsEnv "hp" ["p1", "p2", "nozzz", "p3"]).rankings.map
        (fun e => e.rank) =
      List.range' 1 (collectRankings rankingsEnv "hp" ["p1", "p2", "nozzz", "p3"]).length ∧
    (getStatRankings rankingsEnv "hp" ["p1", "p2", "nozzz", "p3"]).rankings.map
        (fun e => e.value) =
      (sortDesc (collectRankings rankingsEnv "hp" ["p1", "p2", "nozzz", "p3"])).map
        (fun a => a.value) ∧
    ((getStatRankings rankingsEnv "hp" ["p1", "p2", "nozzz", "p3"]).rankings.map
        (fun e => e.value)).Sorted (· ≥ ·) ∧
    (sortDesc (collectRankings rankingsEnv "hp" ["p1", "p2", "nozzz", "p3"])).Perm
      (collectRankings rankingsEnv "hp" ["p1", "p2", "nozzz", "p3"]) ∧
    ((getStatRankings rankingsEnv "hp" ["p1", "p2", "nozzz", "p3"]).rankings.filter
        (fun e => e.value == 5)).map (fun e => e.name) =
      ((collectRankings rankingsEnv "hp" ["p1", "p2", "nozzz", "p3"]).filter
        (fun a => a.value == 5)).map (fun a => a.name) ∧
    getStatRankings rankingsEnv "hp" (["p1"] ++ "nozzz" :: ["p2"]) =
      getStatRankings rankingsEnv "hp" (["p1"] ++ ["p2"]) :=
  getStatRankings_spec rankingsEnv "hp" ["p1", "p2", "nozzz", "p3"] ["p1"] ["p2"]
    "nozzz" 5 (by decide)

/-- C6: on an empty ranked list the summary reports `highest = none`,
`lowest = none` and `average = 0`; on a non-empty one, `highest` is the
first ranked element (rank 1), `lowest` the last (rank n), and `average`
the arithmetic mean of the metric over all ranked entries. -/
theorem getStatRankings_summary (env : Env) (statName : String) (l : List String) :
    ((getStatRankings env statName l).rankings = [] →
      (getStatRankings env statName l).highest = none ∧
      (getStatRankings env statName l).lowest = none ∧
      (getStatRankings env statName l).average = 0) ∧
    (getStatRankings env statName l).highest =
      (getStatRankings env statName l).rankings.head? ∧
    (getStatRankings env statName l).lowest =
      (getStatRankings env statName l).rankings.getLast? ∧
    (getStatRankings env statName l).highest.map (fun e => e.rank) =
      (if (getStatRankings env statName l).rankings = [] then none else some 1) ∧
    (getStatRankings env statName l).lowest.map (fun e => e.rank) =
      (if (getStatRankings env statName l).rankings = [] then none
       else some (getStatRankings env statName l).rankings.length) ∧
    ((getStatRankings env statName l).rankings ≠ [] →
      (getStatRankings env statName l).average =
        (((getStatRankings env statName l).rankings.map (fun e => e.value)).sum : ℚ) /
          (getStatRankings env statName l).rankings.length) := by
  cases hrs : sortDesc (collectRankings env statName l) with
  | nil =>
    simp only [getStatRankings, hrs]
    simp [addRanks, addRanksFrom]
  | cons a xs =>
    simp only [getStatRankings, hrs]
    refine ⟨by simp [addRanks, addRanksFrom], trivial, trivial, ?_, ?_, ?_⟩
    · simp [addRanks, addRanksFrom]
    · have hlast := addRanksFrom_getLastRank xs a 0
      have hlen := addRanksFrom_length (a :: xs) 0
      simp only [addRanks]
      rw [hlast, if_neg (by simp [addRanksFrom])]
      rw [hlen]
      simp only [List.length_cons, Option.some.injEq]
      omega
    · intro hne
      simp [addRanks, addRanksFrom, List.isEmpty_cons]

/-- Witness for C6: the all-unresolvable call has a null summary with
average 0, and the three-subject call has rank-1 highest, rank-3 lowest
and mean 19/3. -/
theorem getStatRankings_summary_witness :
    (getStatRankings rankingsEnv "hp" ["nozzz"]).highest = none ∧
    (getStatRankings rankingsEnv "hp" ["nozzz"]).lowest = none ∧
    (getStatRankings rankingsEnv "hp" ["nozzz"]).average = 0 ∧
    (getStatRankings rankingsEnv "hp" ["p1", "p2", "p3"]).highest.map (fun e => e.rank) =
      some 1 ∧
    (getStatRankings rankingsEnv "hp" ["p1", "p2", "p3"]).lowest.map (fun e => e.rank) =
      some 3 ∧
    (getStatRankings rankingsEnv "hp" ["p1", "p2", "p3"]).average = 19 / 3 := by
  have h0 := getStatRankings_summary rankingsEnv "hp" ["nozzz"]
  have h1 := getStatRankings_summary rankingsEnv "hp" ["p1", "p2", "p3"]
  have he : (getStatRankings rankingsEnv "hp" ["nozzz"]).rankings = [] := by decide
  obtain ⟨ha, hb, hc⟩ := h0.1 he
  have hne : (getStatRankings rankingsEnv "hp" ["p1", "p2", "p3"]).rankings ≠ [] := by decide
  have hr : (getStatRankings rankingsEnv "hp" ["p1", "p2", "p3"]).rankings =
      [{ name := "P2", value := 9, rank := 1 }, { name := "P1", value := 5, rank := 2 },
       { name := "P3", value := 5, rank := 3 }] := by decide
  refine ⟨ha, hb, hc, ?_, ?_, ?_⟩
  · rw [h1.2.2.2.1, if_neg hne]
  · rw [h1.2.2.2.2.1, if_neg hne, hr]
    decide
  · have havg := h1.2.2.2.2.2 hne
    rw [havg, hr]
    norm_num

/-- C10: the live ranked listing also silently excludes a subject that
resolves but lacks the requested metric — its removal leaves the result
unchanged — and every entry of the output traces back to an input key
whose subject possesses the requested metric with the reported value. -/
theorem getStatRankings_requiresMetric (env : Env) (statName : String)
    (l1 l2 : List String) (p : String) (d : Subject) (l : List String) (e : RankedEntry)
    (hp : env p = some d) (hstat : lookupStat d.stats statName = none)
    (he : e ∈ (getStatRankings env statName l).rankings) :
    getStatRankings env statName (l1 ++ p :: l2) = getStatRankings env statName (l1 ++ l2) ∧
    ∃ key, key ∈ l ∧ ∃ dd, env key = some dd ∧ e.name = pyCapitalize dd.name ∧
      lookupStat dd.stats statName = some e.value := by
  constructor
  · have hcoll : collectRankings env statName (l1 ++ p :: l2) =
        collectRankings env statName (l1 ++ l2) := by
      rw [collectRankings_append, collectRankings_append]
      congr 1
      simp [collectRankings, hp, hstat]
    simp only [getStatRankings]
    rw [hcoll]
  · simp only [getStatRankings, addRanks] at he
    obtain ⟨a, ha, hname, hval⟩ := addRanksFrom_mem e _ 0 he
    have ha2 : a ∈ collectRankings env statName l := (sortDesc_perm _).mem_iff.mp ha
    obtain ⟨key, hkey, dd, hdd, hn, hl⟩ := collectRankings_mem env statName a l ha2
    exact ⟨key, hkey, dd, hdd, by rw [hname, hn], by rw [hval]; exact hl⟩

/-- Witness for C10: `p4` resolves but has no `hp` stat, and its removal
leaves the ranked listing unchanged. -/
theorem getStatRankings_requiresMetric_witness :
    getStatRankings rankingsEnv "hp" (["p1"] ++ "p4" :: ["p2"]) =
      getStatRankings rankingsEnv "hp" (["p1"] ++ ["p2"]) := by
  have h := getStatRankings_requiresMetric rankingsEnv "hp" ["p1"] ["p2"] "p4"
    { name := "p4", types := [], stats := [("attack", 3)] } ["p1"]
    { name := "P1", value := 5, rank := 1 } (by decide) (by decide) (by decide)
  exact h.1

/-! ## Team build, coverage score, and the fetch boundary -/

/-- Rounding the only tied-free value the coverage score reaches at nine
distinct categories. -/
lemma round1_nine : round1 ((9 : ℚ) / 18 * 100) = 50 := by
  unfold round1
  rw [show ((9 : ℚ) / 18 * 100 * 10) = 500 by norm_num]
  rw [show ((500 : ℚ)) = ((500 : ℤ) : ℚ) by norm_num, round_intCast]
  norm_num

/-- C7: team build fails exactly on strategies other than `balanced`,
`offensive`, `defensive`; otherwise it returns the first
`min(requested_size, roster_length)` entries of the strategy's fixed
roster together with the duplicate-free set of categories covered by the
selected entries. -/
theorem buildPokemonTeam_spec (s : String) (n : Nat) (d : String)
    (roster : List TeamMember) (ty : String) :
    (buildPokemonTeam s n = none ↔ strategyRoster s = none) ∧
    (strategyRoster s = none ↔ ¬ (s = "balanced" ∨ s = "offensive" ∨ s = "defensive")) ∧
    (strategyRoster s = some (d, roster) →
      buildPokemonTeam s n = some
        { description := d
          teamSize := min n roster.length
          selectedPokemon := roster.take n
          typeCoverage := ((roster.take n).map (fun m => m.types)).flatten.dedup
          strategy := s } ∧
      (roster.take n).length = min n roster.length ∧
      (((roster.take n).map (fun m => m.types)).flatten.dedup).Nodup ∧
      (ty ∈ ((roster.take n).map (fun m => m.types)).flatten.dedup ↔
        ∃ m ∈ roster.take n, ty ∈ m.types)) := by
  refine ⟨?_, ?_, ?_⟩
  · cases hsr : strategyRoster s with
    | none => simp [buildPokemonTeam, hsr]
    | some p => simp [buildPokemonTeam, hsr]
  · unfold strategyRoster
    split_ifs with h1 h2 h3 <;> simp_all
  · intro hr
    refine ⟨by simp [buildPokemonTeam, hr], List.length_take n roster,
      List.nodup_dedup _, ?_⟩
    simp only [List.mem_dedup, List.mem_flatten, List.mem_map]
    constructor
    · rintro ⟨a, ⟨m, hm, rfl⟩, hty⟩
      exact ⟨m, hm, hty⟩
    · rintro ⟨m, hm, hty⟩
      exact ⟨m.types, ⟨m, hm, rfl⟩, hty⟩

/-- Witness for C7: strategy `"offensive"` with requested size 3
returns exactly the first 3 roster entries with their duplicate-free
category coverage, and an unknown strategy fails. -/
theorem buildPokemonTeam_spec_witness :
    buildPokemonTeam "offensive" 3 = some
      { description := "High-damage team focused on overwhelming opponents"
        teamSize := 3
        selectedPokemon :=
          [{ name := "Salamence", role := "Special Sweeper", types := ["Dragon", "Flying"] },
           { name := "Metagross", role := "Physical Sweeper", types := ["Steel", "Psychic"] },
           { name := "Gengar", role := "Special Sweeper", types := ["Ghost", "Poison"] }]
        typeCoverage := ["Dragon", "Flying", "Steel", "Psychic", "Ghost", "Poison"]
        strategy := "offensive" } ∧
    buildPokemonTeam "stall" 3 = none ∧
    (["Dragon", "Flying", "Steel", "Psychic", "Ghost", "Poison"] : List String).Nodup := by
  have h := buildPokemonTeam_spec "offensive" 3
    "High-damage team focused on overwhelming opponents" offensiveRoster "Ghost"
  have h2 := (h.2.2 (by decide)).1
  have h3 := buildPokemonTeam_spec "stall" 3 "" [] "x"
  exact ⟨h2.trans (by decide), h3.1.mpr (by decide), by decide⟩

/-- C8: for every team whose members resolve, the coverage score is
`distinct_category_count / 18 * 100` rounded to one decimal (9 distinct
categories give exactly 50.0), the flagged important categories are
exactly the absent ones among the eight designated, the diversity remark
appears when the distinct count is below 6 and the praise remark when it
is at least 12. -/
theorem calculateTeamCoverage_spec (env : Env) (l : List String)
    (pd : List (String × List String)) :
    ((collectTeam env l).isEmpty = true → calculateTeamCoverage env l = none) ∧
    ((collectTeam env l).isEmpty = false →
      calculateTeamCoverage env l = some (teamCoverageOf (collectTeam env l))) ∧
    (teamCoverageOf pd).typeCoverageScore = (teamCoverageOf pd).offensiveTypes.length ∧
    (teamCoverageOf pd).maxPossibleCoverage = 18 ∧
    (teamCoverageOf pd).coveragePercentage =
      round1 (((teamCoverageOf pd).typeCoverageScore : ℚ) / 18 * 100) ∧
    ((teamCoverageOf pd).typeCoverageScore = 9 →
      (teamCoverageOf pd).coveragePercentage = 50) ∧
    (teamCoverageOf pd).recommendations =
      (if (importantTypes.filter
            (fun t => !(teamCoverageOf pd).offensiveTypes.contains t)).isEmpty then []
       else ["Consider adding Pokemon with these important types: " ++
             String.intercalate ", "
               (importantTypes.filter
                 (fun t => !(teamCoverageOf pd).offensiveTypes.contains t))]) ++
      (if (teamCoverageOf pd).typeCoverageScore < 6 then
         ["Team has limited type diversity - consider adding Pokemon with different types"]
       else if (teamCoverageOf pd).typeCoverageScore ≥ 12 then
         ["Excellent type coverage! Team can handle most matchups"]
       else []) ∧
    ((teamCoverageOf pd).typeCoverageScore < 6 →
      "Team has limited type diversity - consider adding Pokemon with different types" ∈
        (teamCoverageOf pd).recommendations) ∧
    ((teamCoverageOf pd).typeCoverageScore ≥ 12 →
      "Excellent type coverage! Team can handle most matchups" ∈
        (teamCoverageOf pd).recommendations) := by
  have hscore : (teamCoverageOf pd).typeCoverageScore =
      ((pd.map Prod.snd).flatten.dedup).length := rfl
  have hoff : (teamCoverageOf pd).offensiveTypes = (pd.map Prod.snd).flatten.dedup := rfl
  have hrecs : (teamCoverageOf pd).recommendations =
      (if (importantTypes.filter
            (fun t => !((pd.map Prod.snd).flatten.dedup).contains t)).isEmpty then []
       else ["Consider adding Pokemon with these important types: " ++
             String.intercalate ", "
               (importantTypes.filter
                 (fun t => !((pd.map Prod.snd).flatten.dedup).contains t))]) ++
      (if ((pd.map Prod.snd).flatten.dedup).length < 6 then
         ["Team has limited type diversity - consider adding Pokemon with different types"]
       else if ((pd.map Prod.snd).flatten.dedup).length ≥ 12 then
         ["Excellent type coverage! Team can handle most matchups"]
       else []) := rfl
  refine ⟨?_, ?_, rfl, rfl, rfl, ?_, ?_, ?_, ?_⟩
  · intro he
    simp [calculateTeamCoverage, he]
  · intro he
    simp [calculateTeamCoverage, he]
  · intro h9
    have : (teamCoverageOf pd).coveragePercentage =
        round1 (((teamCoverageOf pd).typeCoverageScore : ℚ) / 18 * 100) := rfl
    rw [this, h9]
    exact round1_nine
  · rw [hrecs, hscore, hoff]
  · intro hlt
    rw [hrecs]
    rw [hscore] at hlt
    rw [if_pos hlt]
    exact List.mem_append_right _ (List.mem_cons_self _ _)
  · intro hge
    rw [hrecs]
    rw [hscore] at hge
    have h6 : ¬ ((pd.map Prod.snd).flatten.dedup.length < 6) := by omega
    rw [if_neg h6, if_pos hge]
    exact List.mem_append_right _ (List.mem_cons_self _ _)

/-- Witness for C8: a resolved team covering nine distinct categories —
all eight important ones among them — scores exactly 50.0 with no
recommendations. -/
theorem calculateTeamCoverage_spec_witness :
    calculateTeamCoverage coverageEnv ["solo"] = some
      (teamCoverageOf [("Solo", ["Fire", "Water", "Grass", "Electric", "Ice", "Fighting",
                                 "Flying", "Ground", "Rock"])]) ∧
    (teamCoverageOf [("Solo", ["Fire", "Water", "Grass", "Electric", "Ice", "Fighting",
                               "Flying", "Ground", "Rock"])]).typeCoverageScore = 9 ∧
    (teamCoverageOf [("Solo", ["Fire", "Water", "Grass", "Electric", "Ice", "Fighting",
                               "Flying", "Ground", "Rock"])]).coveragePercentage = 50 ∧
    (teamCoverageOf [("Solo", ["Fire", "Water", "Grass", "Electric", "Ice", "Fighting",
                               "Flying", "Ground", "Rock"])]).recommendations = [] := by
  have h := calculateTeamCoverage_spec coverageEnv ["solo"]
    [("Solo", ["Fire", "Water", "Grass", "Electric", "Ice", "Fighting",
               "Flying", "Ground", "Rock"])]
  have hcoll : collectTeam coverageEnv ["solo"] =
      [("Solo", ["Fire", "Water", "Grass", "Electric", "Ice", "Fighting",
                 "Flying", "Ground", "Rock"])] := by decide
  have hsome := h.2.1 (by decide)
  rw [hcoll] at hsome
  have hscore : (teamCoverageOf [("Solo", ["Fire", "Water", "Grass", "Electric", "Ice",
      "Fighting", "Flying", "Ground", "Rock"])]).typeCoverageScore = 9 := by decide
  exact ⟨hsome, hscore, h.2.2.2.2.2.1 hscore, by decide⟩

/-- C9 (amended: the adapter never throws past its boundary, but the
failure conditions all collapse to the same `None` result — a 404, any
other non-2xx status, a transport failure and a malformed 200 body are
not discriminable by the caller). -/
theorem getPokemonData_boundary (s : Nat) (b : Option Subject) (d : Subject)
    (hs : s ≠ 200) :
    getPokemonData HttpResult.transportFailure = none ∧
    getPokemonData (HttpResult.response s b) = none ∧
    getPokemonData (HttpResult.response 200 none) = none ∧
    getPokemonData (HttpResult.response 200 (some d)) = some d := by
  refine ⟨rfl, ?_, rfl, rfl⟩
  simp [getPokemonData, hs]

/-- Counterexample to C9 as stated: a 404 response, another non-2xx
response, a transport failure and a malformed 200 body all map to the
same value, so the caller cannot discriminate the failure kinds the
claim requires. -/
theorem getPokemonData_kinds_counterexample :
    getPokemonData (HttpResult.response 404 (some sampleSubject)) =
      getPokemonData (HttpResult.response 500 (some sampleSubject)) ∧
    getPokemonData (HttpResult.response 404 (some sampleSubject)) =
      getPokemonData HttpResult.transportFailure ∧
    getPokemonData (HttpResult.response 200 none) =
      getPokemonData HttpResult.transportFailure ∧
    getPokemonData HttpResult.transportFailure = none := by
  refine ⟨by decide, by decide, by decide, by decide⟩

/-- Witness for C9 at status 404: every failure yields `none` and a
well-formed 200 response yields the parsed subject. -/
theorem getPokemonData_boundary_witness :
    getPokemonData HttpResult.transportFailure = none ∧
    getPokemonData (HttpResult.response 404 (some sampleSubject)) = none ∧
    getPokemonData (HttpResult.response 200 none) = none ∧
    getPokemonData (HttpResult.response 200 (some sampleSubject)) = some sampleSubject :=
  getPokemonData_boundary 404 (some sampleSubject) sampleSubject (by decide)

end Workshop
